import Mathlib

/-!
Verification of the decoding/encoding front-end of the eip1962 repository
(files src/public_interface/decode_g1.rs and src/public_interface/decode_g2.rs).

Byte buffers are shallowly embedded as lists of natural numbers, arbitrary
precision integers (BigUint) as Nat, and fallible Rust functions returning
Result<_, ApiError> as Except ApiError _.  Field elements are represented by
their reduced integer value; a prime field or a curve is represented by the
data the decoders actually consult (the modulus for a field, the base field
modulus for a curve).
-/

namespace EIP

abbrev Bytes := List Nat

/-- The error type of the public interface (crate errors ApiError), restricted
to the variants the decoders in scope construct. -/
inductive ApiError
  | InputError (msg : String)
  | UnexpectedZero (msg : String)
  | UnknownParameter (msg : String)
deriving DecidableEq

/-- Constant from public_interface constants: a length header is one byte. -/
def BYTES_FOR_LENGTH_ENCODING : Nat := 1

/-- Constant from public_interface constants: a degree tag is one byte. -/
def EXTENSION_DEGREE_ENCODING_LENGTH : Nat := 1

/-- Constant from public_interface constants: the quadratic degree tag value. -/
def EXTENSION_DEGREE_2 : Nat := 2

/-- Constant from public_interface constants: the cubic degree tag value. -/
def EXTENSION_DEGREE_3 : Nat := 3

/-- BigUint from_bytes_be: interpret a byte string as a big-endian unsigned
integer. -/
def from_bytes_be (bs : Bytes) : Nat :=
  bs.foldl (fun acc b => acc * 256 + b) 0

/-- Modelled from the spec: crate field biguint_to_u64_vec (the field module is
not under src/): the little-endian 64-bit limb vector of an unsigned integer,
empty for zero. -/
def biguint_to_u64_vec (v : Nat) : List Nat :=
  if h : v = 0 then []
  else (v % 2 ^ 64) :: biguint_to_u64_vec (v / 2 ^ 64)
decreasing_by
  exact Nat.div_lt_self (Nat.pos_of_ne_zero h) (by norm_num)

/-- The integer value denoted by a little-endian 64-bit limb vector. -/
def limbsToNat : List Nat → Nat
  | [] => 0
  | l :: ls => l + 2 ^ 64 * limbsToNat ls

/-- decode_g1 get_base_field_params: read a one-byte length header, then that
many bytes as a big-endian modulus, rejecting a zero modulus. -/
def get_base_field_params (bytes : Bytes) :
    Except ApiError ((Nat × Nat) × Bytes) :=
  match bytes with
  | [] => .error (.InputError "Input is not long enough to get modulus length")
  | lenByte :: rest =>
    let modulus_len := lenByte
    if rest.length < modulus_len then
      .error (.InputError "Input is not long enough to get modulus")
    else
      let modulus := from_bytes_be (rest.take modulus_len)
      if modulus = 0 then
        .error (.UnexpectedZero "Modulus can not be zero")
      else
        .ok ((modulus, modulus_len), rest.drop modulus_len)

/-- decode_g1 get_g1_curve_params: read a one-byte length header, then that
many bytes as the raw group order encoding (no zero check at this stage). -/
def get_g1_curve_params (bytes : Bytes) :
    Except ApiError ((Bytes × Nat) × Bytes) :=
  match bytes with
  | [] => .error (.InputError "Input is not long enough to get group size length")
  | lenByte :: rest =>
    let order_len := lenByte
    if rest.length < order_len then
      .error (.InputError "Input is not long enough to get main group order size")
    else
      .ok ((rest.take order_len, order_len), rest.drop order_len)

/-- decode_g1 parse_group_order_from_encoding: read the order via
get_g1_curve_params, interpret big-endian, reject zero, convert to limbs. -/
def parse_group_order_from_encoding (encoding : Bytes) :
    Except ApiError (List Nat × Nat × Nat × Bytes) :=
  match get_g1_curve_params encoding with
  | .error e => .error e
  | .ok ((order_enc, order_len), rest) =>
    let order := from_bytes_be order_enc
    if order = 0 then
      .error (.InputError "Group order is zero")
    else
      .ok (biguint_to_u64_vec order, order_len, order, rest)

/-- decode_g1 decode_scalar_representation: read exactly order_byte_len bytes
big-endian, reject a scalar not below the order, return the limb vector
resized to at least the limb length of the order representation. -/
def decode_scalar_representation (bytes : Bytes) (order_byte_len : Nat)
    (order : Nat) (order_repr : List Nat) :
    Except ApiError (List Nat × Bytes) :=
  if bytes.length < order_byte_len then
    .error (.InputError "Input is not long enough to get scalar")
  else
    let scalar := from_bytes_be (bytes.take order_byte_len)
    if order ≤ scalar then
      .error (.InputError "Group order is zero")
    else
      let repr := biguint_to_u64_vec scalar
      let repr := if repr.length < order_repr.length
        then repr ++ List.replicate (order_repr.length - repr.length) 0
        else repr
      .ok (repr, bytes.drop order_byte_len)

/-- Modelled from the spec: the field-element codec collaborator decode_fp
(public_interface decode_fp.rs is not under src/): read exactly field_byte_len
bytes, interpret big-endian, reject a value not strictly below the modulus,
return the reduced value and the remainder. -/
def decode_fp (bytes : Bytes) (field_byte_len : Nat) (field : Nat) :
    Except ApiError (Nat × Bytes) :=
  if bytes.length < field_byte_len then
    .error (.InputError "Input is not long enough to get Fp element")
  else
    let x := from_bytes_be (bytes.take field_byte_len)
    if field ≤ x then
      .error (.InputError "Failed to parse Fp element")
    else
      .ok (x, bytes.drop field_byte_len)

/-- Modelled from the spec: Fp from_be_bytes with the canonicality check
enabled (the fp module is not under src/): big-endian interpretation, failing
when the value is not strictly below the modulus. -/
def fp_from_be_bytes_checked (field : Nat) (encoding : Bytes) : Option Nat :=
  let x := from_bytes_be encoding
  if x < field then some x else none

/-- A Weierstrass curve as consulted by the decoders: only its base field
modulus and its coefficients. -/
structure WeierstrassCurve where
  a : Nat
  b : Nat
  base_field : Nat
deriving DecidableEq

/-- Modelled from the spec: CurvePoint point_from_xy (the weierstrass module
is not under src/) constructs the affine pair with no curve-membership check
at this layer. -/
def point_from_xy (_curve : WeierstrassCurve) (x y : Nat) : Nat × Nat :=
  (x, y)

/-- decode_g1 decode_g1_point_from_xy: read X then Y as checked fixed-width
base-field elements, with positional errors, and build the point without a
membership check. -/
def decode_g1_point_from_xy (bytes : Bytes) (field_byte_len : Nat)
    (curve : WeierstrassCurve) :
    Except ApiError ((Nat × Nat) × Bytes) :=
  if bytes.length < field_byte_len then
    .error (.InputError "Input is not long enough to get X")
  else
    match fp_from_be_bytes_checked curve.base_field (bytes.take field_byte_len) with
    | none => .error (.InputError "Failed to parse X")
    | some x =>
      let rest := bytes.drop field_byte_len
      if rest.length < field_byte_len then
        .error (.InputError "Input is not long enough to get Y")
      else
        match fp_from_be_bytes_checked curve.base_field (rest.take field_byte_len) with
        | none => .error (.InputError "Failed to parse Y")
        | some y => .ok (point_from_xy curve x y, rest.drop field_byte_len)

/-- Fixed-width big-endian byte string of an unsigned integer. -/
def to_bytes_be_fixed : Nat → Nat → Bytes
  | 0, _ => []
  | n + 1, x => to_bytes_be_fixed n (x / 256) ++ [x % 256]

/-- Modelled from the spec: the field-element codec collaborator
serialize_fp_fixed_len (decode_fp.rs is not under src/): encode a field
element as exactly modulus_len big-endian bytes, failing when the value does
not fit that width. -/
def serialize_fp_fixed_len (modulus_len : Nat) (x : Nat) :
    Except ApiError Bytes :=
  if x < 256 ^ modulus_len then .ok (to_bytes_be_fixed modulus_len x)
  else .error (.InputError "Element is too large for modulus length")

/-- decode_g1 serialize_g1_point: fixed-width X encoding followed by
fixed-width Y encoding. -/
def serialize_g1_point (modulus_len : Nat) (point : Nat × Nat) :
    Except ApiError Bytes :=
  match serialize_fp_fixed_len modulus_len point.1 with
  | .error e => .error e
  | .ok xb =>
    match serialize_fp_fixed_len modulus_len point.2 with
    | .error e => .error e
    | .ok yb => .ok (xb ++ yb)

/-- Modelled from the spec: crate field field_from_modulus (the field module
is not under src/): builds the prime field, failing when the modulus exceeds
the supported limb width (16 limbs of 64 bits); the field is represented by
its modulus. -/
def field_from_modulus (modulus : Nat) : Option Nat :=
  if modulus < 2 ^ 1024 then some modulus else none

/-- decode_g1 parse_base_field_from_encoding: parse modulus parameters, build
the field, and pre-check that at least modulus_len bytes remain (without
consuming them). -/
def parse_base_field_from_encoding (encoding : Bytes) :
    Except ApiError (Nat × Nat × Nat × Bytes) :=
  match get_base_field_params encoding with
  | .error e => .error e
  | .ok ((modulus, modulus_len), rest) =>
    match field_from_modulus modulus with
    | none => .error (.InputError "Failed to create prime field from modulus")
    | some field =>
      if rest.length < modulus_len then
        .error (.InputError "Input is not long enough")
      else
        .ok (field, modulus_len, modulus, rest)

/-- The Legendre symbol outcome type (crate representation LegendreSymbol). -/
inductive LegendreSymbol
  | Zero
  | QuadraticResidue
  | QuadraticNonResidue
deriving DecidableEq

/-- Modelled from the spec: the Legendre-symbol evaluator collaborator (the
extension_towers module is not under src/): zero for the zero element,
quadratic residue when exponentiation by the supplied exponent yields one,
non-residue otherwise.  The element is a reduced value of the field. -/
def legendre_symbol (x : Nat) (field : Nat) (e : Nat) : LegendreSymbol :=
  if x = 0 then .Zero
  else if x ^ e % field = 1 then .QuadraticResidue
  else .QuadraticNonResidue

/-- A quadratic extension as built by the decoder: the non-residue and the
derived Frobenius coefficients. -/
structure Extension2 where
  non_residue : Nat
  frobenius_coeffs_c1 : List Nat
deriving DecidableEq

/-- A cubic extension as built by the decoder. -/
structure Extension3 where
  non_residue : Nat
  frobenius_coeffs_c1 : List Nat
  frobenius_coeffs_c2 : List Nat
deriving DecidableEq

/-- Modelled from the spec: Frobenius-coefficient derivation for Fp2
(Extension2 calculate_frobenius_coeffs, not under src/): coefficients are the
non-residue raised to ((q ^ i) - 1) / 2 for i = 0, 1, reduced in the base
field. -/
def frobenius_coeffs_fp2 (modulus : Nat) (non_residue : Nat) (field : Nat) :
    Option (List Nat) :=
  some [1 % field, non_residue ^ ((modulus - 1) / 2) % field]

/-- Modelled from the spec: Frobenius-coefficient derivation for Fp3
(Extension3 calculate_frobenius_coeffs, not under src/): derivation fails for
a modulus shape where the cubic exponents are not integral (modulus not
congruent to 1 modulo 3); otherwise the coefficients are powers of the
non-residue with exponents ((q ^ i) - 1) / 3 and twice that, reduced in the
base field. -/
def frobenius_coeffs_fp3 (modulus : Nat) (non_residue : Nat) (field : Nat) :
    Option (List Nat × List Nat) :=
  if modulus % 3 = 1 then
    some ([1 % field, non_residue ^ ((modulus - 1) / 3) % field],
          [1 % field, non_residue ^ (2 * ((modulus - 1) / 3)) % field])
  else none

/-- decode_g2 create_fp2_extension: check the degree tag equals 2, decode a
nonzero non-residue, reject an actual quadratic residue (or zero) by the
Legendre symbol with exponent (modulus - 1) / 2, then derive Frobenius
coefficients. -/
def create_fp2_extension (bytes : Bytes) (modulus : Nat)
    (field_byte_len : Nat) (base_field : Nat) :
    Except ApiError (Extension2 × Bytes) :=
  match bytes with
  | [] => .error (.InputError "Input is not long enough to get extension degree")
  | degree :: rest =>
    if degree ≠ EXTENSION_DEGREE_2 then
      .error (.UnknownParameter "Extension degree expected to be 2")
    else
      match decode_fp rest field_byte_len base_field with
      | .error e => .error e
      | .ok (fp_non_residue, rest) =>
        if fp_non_residue = 0 then
          .error (.UnexpectedZero "Fp2 non-residue can not be zero")
        else
          match legendre_symbol fp_non_residue base_field ((modulus - 1) / 2) with
          | .QuadraticResidue | .Zero =>
            .error (.InputError "Non-residue for Fp2 is actually a residue")
          | .QuadraticNonResidue =>
            match frobenius_coeffs_fp2 modulus fp_non_residue base_field with
            | none =>
              .error (.UnknownParameter "Failed to calculate Frobenius coeffs for Fp2")
            | some coeffs => .ok (⟨fp_non_residue, coeffs⟩, rest)

/-- decode_g2 create_fp3_extension: check the degree tag equals 3, decode a
nonzero non-residue, then derive Frobenius coefficients; no residue validity
test is performed on the cubic path. -/
def create_fp3_extension (bytes : Bytes) (modulus : Nat)
    (field_byte_len : Nat) (base_field : Nat) :
    Except ApiError (Extension3 × Bytes) :=
  match bytes with
  | [] => .error (.InputError "Input is not long enough to get extension degree")
  | degree :: rest =>
    if degree ≠ EXTENSION_DEGREE_3 then
      .error (.UnknownParameter "Extension degree expected to be 3")
    else
      match decode_fp rest field_byte_len base_field with
      | .error e => .error e
      | .ok (fp_non_residue, rest) =>
        if fp_non_residue = 0 then
          .error (.UnexpectedZero "Fp2 non-residue can not be zero")
        else
          match frobenius_coeffs_fp3 modulus fp_non_residue base_field with
          | none =>
            .error (.UnknownParameter "Failed to calculate Frobenius coeffs for Fp3")
          | some (c1, c2) => .ok (⟨fp_non_residue, c1, c2⟩, rest)

end EIP

namespace EIP

/- Helper lemmas about big-endian interpretation and limb vectors. -/

theorem from_bytes_be_nil : from_bytes_be [] = 0 := rfl

theorem foldl_acc_from_bytes (bs : Bytes) (acc : Nat) :
    bs.foldl (fun acc b => acc * 256 + b) acc =
      acc * 256 ^ bs.length + from_bytes_be bs := by
  induction bs generalizing acc with
  | nil => simp [from_bytes_be]
  | cons b bs ih =>
    simp only [List.foldl_cons, from_bytes_be, List.length_cons]
    rw [ih (acc * 256 + b), ih (0 * 256 + b), pow_succ]
    ring

theorem from_bytes_be_cons (b : Nat) (bs : Bytes) :
    from_bytes_be (b :: bs) = b * 256 ^ bs.length + from_bytes_be bs := by
  simp only [from_bytes_be, List.foldl_cons]
  simpa using foldl_acc_from_bytes bs b

theorem from_bytes_be_append (xs ys : Bytes) :
    from_bytes_be (xs ++ ys) =
      from_bytes_be xs * 256 ^ ys.length + from_bytes_be ys := by
  simp only [from_bytes_be, List.foldl_append]
  exact foldl_acc_from_bytes ys (xs.foldl (fun acc b => acc * 256 + b) 0)

theorem from_bytes_be_replicate_zero (k : Nat) (bs : Bytes) :
    from_bytes_be (List.replicate k 0 ++ bs) = from_bytes_be bs := by
  rw [from_bytes_be_append]
  have : from_bytes_be (List.replicate k 0) = 0 := by
    induction k with
    | zero => rfl
    | succ n ih =>
      rw [List.replicate_succ, from_bytes_be_cons, ih]
      simp
  rw [this]
  simp

theorem from_bytes_be_lt (bs : Bytes) (hb : ∀ b ∈ bs, b < 256) :
    from_bytes_be bs < 256 ^ bs.length := by
  induction bs with
  | nil => simp [from_bytes_be]
  | cons b bs ih =>
    rw [from_bytes_be_cons]
    have hb1 : b < 256 := hb b (by simp)
    have hrest := ih (fun x hx => hb x (by simp [hx]))
    have : b * 256 ^ bs.length + from_bytes_be bs <
        (b + 1) * 256 ^ bs.length := by
      have hsm : (b + 1) * 256 ^ bs.length
          = b * 256 ^ bs.length + 256 ^ bs.length := by ring
      omega
    calc b * 256 ^ bs.length + from_bytes_be bs
        < (b + 1) * 256 ^ bs.length := this
      _ ≤ 256 * 256 ^ bs.length := by
          exact Nat.mul_le_mul_right _ (by omega)
      _ = 256 ^ (bs.length + 1) := by rw [pow_succ]; ring
      _ = 256 ^ (b :: bs).length := by simp

theorem limbs_value (v : Nat) : limbsToNat (biguint_to_u64_vec v) = v := by
  induction v using Nat.strong_induction_on with
  | _ v ih =>
    rw [biguint_to_u64_vec]
    split
    · simp [limbsToNat, *]
    · rename_i h
      rw [limbsToNat, ih (v / 2 ^ 64) (Nat.div_lt_self (Nat.pos_of_ne_zero h) (by norm_num))]
      omega

theorem limbsToNat_append_zeros (xs : List Nat) (k : Nat) :
    limbsToNat (xs ++ List.replicate k 0) = limbsToNat xs := by
  induction xs with
  | nil =>
    simp only [List.nil_append]
    induction k with
    | zero => rfl
    | succ n ih =>
      rw [List.replicate_succ]
      simp only [limbsToNat] at *
      omega
  | cons x xs ih => simp [limbsToNat, ih]

theorem to_bytes_be_fixed_length (n : Nat) :
    ∀ x, (to_bytes_be_fixed n x).length = n := by
  induction n with
  | zero => intro x; rfl
  | succ n ih =>
    intro x
    simp [to_bytes_be_fixed, ih]

theorem from_to_bytes_be_fixed (n : Nat) :
    ∀ x, x < 256 ^ n → from_bytes_be (to_bytes_be_fixed n x) = x := by
  induction n with
  | zero =>
    intro x h
    simp only [pow_zero, Nat.lt_one_iff] at h
    simp [to_bytes_be_fixed, from_bytes_be, h]
  | succ n ih =>
    intro x h
    have hdiv : x / 256 < 256 ^ n := by
      apply Nat.div_lt_of_lt_mul
      rw [pow_succ] at h
      omega
    rw [to_bytes_be_fixed, from_bytes_be_append, ih (x / 256) hdiv]
    have : from_bytes_be [x % 256] = x % 256 := by simp [from_bytes_be]
    rw [this]
    simp only [List.length_cons, List.length_nil, pow_one]
    omega

theorem to_from_bytes_be_fixed (bs : Bytes) (hb : ∀ b ∈ bs, b < 256) :
    to_bytes_be_fixed bs.length (from_bytes_be bs) = bs := by
  induction bs using List.reverseRecOn with
  | nil => rfl
  | append_singleton bs b ih =>
    have hb1 : b < 256 := hb b (by simp)
    have hrest : ∀ x ∈ bs, x < 256 := fun x hx => hb x (by simp [hx])
    rw [from_bytes_be_append]
    have h1 : from_bytes_be [b] = b := by simp [from_bytes_be]
    simp only [List.length_append, List.length_cons, List.length_nil, pow_one, h1]
    rw [to_bytes_be_fixed]
    norm_num
    have h2 : (from_bytes_be bs * 256 + b) / 256 = from_bytes_be bs := by omega
    have h3 : (from_bytes_be bs * 256 + b) % 256 = b := by omega
    rw [h2, h3, ih hrest]

end EIP

namespace EIP

/- Claim theorems. -/

/-- C1: given at least order_byte_len bytes, decode_scalar_representation
interprets exactly the first order_byte_len bytes as a big-endian unsigned
integer; it fails with an out-of-range input error whenever that scalar is at
least the order, and for a scalar below the order it succeeds with remainder
the suffix past order_byte_len and a limb vector denoting the scalar whose
length is at least the length of the order limb vector. -/
theorem decode_scalar_representation_C1
    (bytes : Bytes) (order_byte_len : Nat) (order : Nat) (order_repr : List Nat)
    (h : order_byte_len ≤ bytes.length) :
    (order ≤ from_bytes_be (bytes.take order_byte_len) →
      decode_scalar_representation bytes order_byte_len order order_repr
        = .error (.InputError "Group order is zero")) ∧
    (from_bytes_be (bytes.take order_byte_len) < order →
      ∃ repr,
        decode_scalar_representation bytes order_byte_len order order_repr
          = .ok (repr, bytes.drop order_byte_len) ∧
        limbsToNat repr = from_bytes_be (bytes.take order_byte_len) ∧
        order_repr.length ≤ repr.length) := by
  have hnot : ¬ (bytes.length < order_byte_len) := by omega
  constructor
  · intro hge
    simp only [decode_scalar_representation, if_neg hnot, if_pos hge]
  · intro hlt
    simp only [decode_scalar_representation, if_neg hnot,
      if_neg (Nat.not_le.mpr hlt)]
    by_cases hc : (biguint_to_u64_vec
        (from_bytes_be (bytes.take order_byte_len))).length < order_repr.length
    · rw [if_pos hc]
      refine ⟨_, rfl, ?_, ?_⟩
      · rw [limbsToNat_append_zeros, limbs_value]
      · simp only [List.length_append, List.length_replicate]
        omega
    · rw [if_neg hc]
      exact ⟨_, rfl, limbs_value _, by omega⟩

/-- Witness for C1: order 11, two-byte scalar encoding of 15 is rejected as
out of range, and the two-byte encoding of 5 decodes to limb value 5. -/
theorem decode_scalar_representation_C1_witness :
    (2 ≤ ([0, 15] : Bytes).length ∧
      decode_scalar_representation [0, 15] 2 11 [11]
        = .error (.InputError "Group order is zero")) ∧
    (∃ repr, decode_scalar_representation [0, 5, 9] 2 11 [11]
        = .ok (repr, ([0, 5, 9] : Bytes).drop 2) ∧
      limbsToNat repr = from_bytes_be (([0, 5, 9] : Bytes).take 2) ∧
      ([11] : List Nat).length ≤ repr.length) :=
  ⟨⟨by decide,
    (decode_scalar_representation_C1 [0, 15] 2 11 [11] (by decide)).1 (by decide)⟩,
   (decode_scalar_representation_C1 [0, 5, 9] 2 11 [11] (by decide)).2 (by decide)⟩

/-- C2: once the quadratic constructor has decoded a nonzero non-residue, a
Legendre symbol of quadratic residue or zero makes it fail with the residue
violation input error; a true quadratic non-residue makes it construct the
Extension2 object with the derived Frobenius coefficients, and an unknown
parameter failure can arise only from a failed coefficient derivation. -/
theorem create_fp2_extension_C2
    (rest0 rest1 : Bytes) (modulus field_byte_len base_field nr : Nat)
    (hdec : decode_fp rest0 field_byte_len base_field = .ok (nr, rest1))
    (hnz : nr ≠ 0) :
    (legendre_symbol nr base_field ((modulus - 1) / 2) = .QuadraticResidue ∨
     legendre_symbol nr base_field ((modulus - 1) / 2) = .Zero →
      create_fp2_extension (EXTENSION_DEGREE_2 :: rest0) modulus field_byte_len base_field
        = .error (.InputError "Non-residue for Fp2 is actually a residue")) ∧
    (legendre_symbol nr base_field ((modulus - 1) / 2) = .QuadraticNonResidue →
      ∃ coeffs, frobenius_coeffs_fp2 modulus nr base_field = some coeffs ∧
        create_fp2_extension (EXTENSION_DEGREE_2 :: rest0) modulus field_byte_len base_field
          = .ok (⟨nr, coeffs⟩, rest1)) ∧
    (∀ msg, create_fp2_extension (EXTENSION_DEGREE_2 :: rest0) modulus field_byte_len base_field
        = .error (.UnknownParameter msg) →
      frobenius_coeffs_fp2 modulus nr base_field = none) := by
  have hdeg : ¬ (EXTENSION_DEGREE_2 ≠ EXTENSION_DEGREE_2) := fun hc => hc rfl
  refine ⟨?_, ?_, ?_⟩
  · intro hres
    simp only [create_fp2_extension, if_neg hdeg, hdec, if_neg hnz]
    rcases hres with hres | hres <;> rw [hres]
  · intro hres
    simp only [create_fp2_extension, if_neg hdeg, hdec, if_neg hnz, hres,
      frobenius_coeffs_fp2]
    exact ⟨_, rfl, rfl⟩
  · intro msg hmsg
    simp only [create_fp2_extension, if_neg hdeg, hdec, if_neg hnz] at hmsg
    cases hleg : legendre_symbol nr base_field ((modulus - 1) / 2) <;>
      rw [hleg] at hmsg <;>
      simp only [frobenius_coeffs_fp2] at hmsg ⊢ <;>
      exact absurd hmsg (by simp)

/-- Witness for C2: over the field with modulus 7 the element 3 is a true
quadratic non-residue, so the extension is built; the Frobenius coefficient
list has the expected two entries. -/
theorem create_fp2_extension_C2_witness :
    decode_fp [3, 99] 1 7 = .ok (3, [99]) ∧ (3 : Nat) ≠ 0 ∧
    legendre_symbol 3 7 ((7 - 1) / 2) = .QuadraticNonResidue ∧
    (∃ coeffs, frobenius_coeffs_fp2 7 3 7 = some coeffs ∧
      create_fp2_extension (EXTENSION_DEGREE_2 :: [3, 99]) 7 1 7
        = .ok (⟨3, coeffs⟩, [99])) :=
  ⟨rfl, by decide, by decide,
   (create_fp2_extension_C2 [3, 99] [99] 7 1 7 3 rfl (by decide)).2.1 (by decide)⟩

end EIP

namespace EIP

theorem get_base_field_params_cons (lenByte : Nat) (rest : Bytes) :
    get_base_field_params (lenByte :: rest)
      = if rest.length < lenByte then
          .error (.InputError "Input is not long enough to get modulus")
        else if from_bytes_be (rest.take lenByte) = 0 then
          .error (.UnexpectedZero "Modulus can not be zero")
        else
          .ok ((from_bytes_be (rest.take lenByte), lenByte), rest.drop lenByte) :=
  rfl

theorem get_g1_curve_params_cons (lenByte : Nat) (rest : Bytes) :
    get_g1_curve_params (lenByte :: rest)
      = if rest.length < lenByte then
          .error (.InputError "Input is not long enough to get main group order size")
        else .ok ((rest.take lenByte, lenByte), rest.drop lenByte) :=
  rfl

/-- C3: a zero modulus makes get_base_field_params fail with UnexpectedZero
without consuming element bytes, a zero group order makes
parse_group_order_from_encoding fail with InputError, and a zero non-residue
makes the quadratic and cubic extension constructors fail with
UnexpectedZero. -/
theorem zero_values_rejected_C3
    (modulus_len : Nat) (payload rest : Bytes)
    (modulus field_byte_len base_field : Nat) (nrEnc nrRest : Bytes)
    (hlen : payload.length = modulus_len)
    (hzero : from_bytes_be payload = 0)
    (hdec : decode_fp nrEnc field_byte_len base_field = .ok (0, nrRest)) :
    get_base_field_params (modulus_len :: (payload ++ rest))
      = .error (.UnexpectedZero "Modulus can not be zero") ∧
    parse_group_order_from_encoding (modulus_len :: (payload ++ rest))
      = .error (.InputError "Group order is zero") ∧
    create_fp2_extension (EXTENSION_DEGREE_2 :: nrEnc) modulus field_byte_len base_field
      = .error (.UnexpectedZero "Fp2 non-residue can not be zero") ∧
    create_fp3_extension (EXTENSION_DEGREE_3 :: nrEnc) modulus field_byte_len base_field
      = .error (.UnexpectedZero "Fp2 non-residue can not be zero") := by
  have hlong : ¬ ((payload ++ rest).length < modulus_len) := by
    rw [List.length_append]
    omega
  have htake : (payload ++ rest).take modulus_len = payload := by
    rw [← hlen]
    exact List.take_left payload rest
  refine ⟨?_, ?_, ?_, ?_⟩
  · rw [get_base_field_params_cons, if_neg hlong, htake, hzero]
    rfl
  · simp only [parse_group_order_from_encoding, get_g1_curve_params_cons,
      if_neg hlong, htake, hzero]
    rfl
  · have hdeg : ¬ (EXTENSION_DEGREE_2 ≠ EXTENSION_DEGREE_2) := fun hc => hc rfl
    simp only [create_fp2_extension, if_neg hdeg, hdec]
    rfl
  · have hdeg : ¬ (EXTENSION_DEGREE_3 ≠ EXTENSION_DEGREE_3) := fun hc => hc rfl
    simp only [create_fp3_extension, if_neg hdeg, hdec]
    rfl

/-- Witness for C3: a one-byte zero modulus encoding, a one-byte zero order
encoding and a one-byte zero non-residue over the field with modulus 5. -/
theorem zero_values_rejected_C3_witness :
    get_base_field_params [1, 0]
      = .error (.UnexpectedZero "Modulus can not be zero") ∧
    parse_group_order_from_encoding [1, 0]
      = .error (.InputError "Group order is zero") ∧
    create_fp2_extension [2, 0] 5 1 5
      = .error (.UnexpectedZero "Fp2 non-residue can not be zero") ∧
    create_fp3_extension [3, 0] 5 1 5
      = .error (.UnexpectedZero "Fp2 non-residue can not be zero") :=
  zero_values_rejected_C3 1 [0] [] 5 1 5 [0] [] (by decide) (by decide) rfl

/-- C4: both extension constructors read a one-byte degree tag first and fail
with UnknownParameter on a mismatched tag (not 2 on the quadratic path, not 3
on the cubic path) for every possible remainder of the buffer, hence before
any non-residue bytes are consumed; in particular a leading 0x03 byte makes
the quadratic constructor fail this way. -/
theorem degree_tag_mismatch_C4
    (d : Nat) (rest : Bytes) (modulus field_byte_len base_field : Nat) :
    (d ≠ EXTENSION_DEGREE_2 →
      create_fp2_extension (d :: rest) modulus field_byte_len base_field
        = .error (.UnknownParameter "Extension degree expected to be 2")) ∧
    (d ≠ EXTENSION_DEGREE_3 →
      create_fp3_extension (d :: rest) modulus field_byte_len base_field
        = .error (.UnknownParameter "Extension degree expected to be 3")) := by
  constructor
  · intro hd
    simp only [create_fp2_extension, if_pos hd]
  · intro hd
    simp only [create_fp3_extension, if_pos hd]

/-- Witness for C4: a buffer starting with byte 3 fails the quadratic path
with the unknown-parameter error even though no non-residue bytes follow, and
symmetrically a leading byte 2 fails the cubic path. -/
theorem degree_tag_mismatch_C4_witness :
    create_fp2_extension [3] 7 1 7
      = .error (.UnknownParameter "Extension degree expected to be 2") ∧
    create_fp3_extension [2] 7 1 7
      = .error (.UnknownParameter "Extension degree expected to be 3") :=
  ⟨(degree_tag_mismatch_C4 3 [] 7 1 7).1 (by decide),
   (degree_tag_mismatch_C4 2 [] 7 1 7).2 (by decide)⟩

end EIP

namespace EIP

theorem decode_g1_cases (bytes : Bytes) (field_byte_len : Nat)
    (curve : WeierstrassCurve) :
    (bytes.length < field_byte_len →
      decode_g1_point_from_xy bytes field_byte_len curve
        = .error (.InputError "Input is not long enough to get X")) ∧
    (field_byte_len ≤ bytes.length →
      curve.base_field ≤ from_bytes_be (bytes.take field_byte_len) →
      decode_g1_point_from_xy bytes field_byte_len curve
        = .error (.InputError "Failed to parse X")) ∧
    (field_byte_len ≤ bytes.length → bytes.length < 2 * field_byte_len →
      from_bytes_be (bytes.take field_byte_len) < curve.base_field →
      decode_g1_point_from_xy bytes field_byte_len curve
        = .error (.InputError "Input is not long enough to get Y")) ∧
    (2 * field_byte_len ≤ bytes.length →
      from_bytes_be (bytes.take field_byte_len) < curve.base_field →
      curve.base_field ≤ from_bytes_be ((bytes.drop field_byte_len).take field_byte_len) →
      decode_g1_point_from_xy bytes field_byte_len curve
        = .error (.InputError "Failed to parse Y")) ∧
    (2 * field_byte_len ≤ bytes.length →
      from_bytes_be (bytes.take field_byte_len) < curve.base_field →
      from_bytes_be ((bytes.drop field_byte_len).take field_byte_len) < curve.base_field →
      decode_g1_point_from_xy bytes field_byte_len curve
        = .ok ((from_bytes_be (bytes.take field_byte_len),
                from_bytes_be ((bytes.drop field_byte_len).take field_byte_len)),
               bytes.drop (2 * field_byte_len))) := by
  refine ⟨?_, ?_, ?_, ?_, ?_⟩
  · intro h1
    simp only [decode_g1_point_from_xy, if_pos h1]
  · intro h1 h2
    simp only [decode_g1_point_from_xy, fp_from_be_bytes_checked,
      if_neg (Nat.not_lt.mpr h1), if_neg (Nat.not_lt.mpr h2)]
  · intro h1 h2 h3
    have hY : (bytes.drop field_byte_len).length < field_byte_len := by
      rw [List.length_drop]
      omega
    simp only [decode_g1_point_from_xy, fp_from_be_bytes_checked,
      if_neg (Nat.not_lt.mpr h1), if_pos h3, if_pos hY]
  · intro h1 h2 h3
    have hY : ¬ ((bytes.drop field_byte_len).length < field_byte_len) := by
      rw [List.length_drop]
      omega
    have h1' : ¬ (bytes.length < field_byte_len) := by omega
    simp only [decode_g1_point_from_xy, fp_from_be_bytes_checked,
      if_neg h1', if_pos h2, if_neg hY, if_neg (Nat.not_lt.mpr h3)]
  · intro h1 h2 h3
    have hY : ¬ ((bytes.drop field_byte_len).length < field_byte_len) := by
      rw [List.length_drop]
      omega
    have h1' : ¬ (bytes.length < field_byte_len) := by omega
    simp only [decode_g1_point_from_xy, fp_from_be_bytes_checked, point_from_xy,
      if_neg h1', if_pos h2, if_neg hY, if_pos h3]
    rw [List.drop_drop]
    norm_num [two_mul]

theorem decode_g1_ok_inv (bytes : Bytes) (field_byte_len : Nat)
    (curve : WeierstrassCurve) (pt : Nat × Nat) (rest : Bytes)
    (h : decode_g1_point_from_xy bytes field_byte_len curve = .ok (pt, rest)) :
    2 * field_byte_len ≤ bytes.length ∧
    from_bytes_be (bytes.take field_byte_len) < curve.base_field ∧
    from_bytes_be ((bytes.drop field_byte_len).take field_byte_len) < curve.base_field ∧
    pt = (from_bytes_be (bytes.take field_byte_len),
          from_bytes_be ((bytes.drop field_byte_len).take field_byte_len)) ∧
    rest = bytes.drop (2 * field_byte_len) := by
  obtain ⟨c1, c2, c3, c4, c5⟩ := decode_g1_cases bytes field_byte_len curve
  by_cases h1 : bytes.length < field_byte_len
  · rw [c1 h1] at h
    exact absurd h (by simp)
  · have h1' : field_byte_len ≤ bytes.length := by omega
    by_cases h2 : from_bytes_be (bytes.take field_byte_len) < curve.base_field
    · by_cases h3 : bytes.length < 2 * field_byte_len
      · rw [c3 h1' h3 h2] at h
        exact absurd h (by simp)
      · have h3' : 2 * field_byte_len ≤ bytes.length := by omega
        by_cases h4 : from_bytes_be ((bytes.drop field_byte_len).take field_byte_len)
            < curve.base_field
        · rw [c5 h3' h2 h4] at h
          refine ⟨h3', h2, h4, ?_, ?_⟩
          · injection h with h
            injection h with hpt hrest
            exact hpt.symm
          · injection h with h
            injection h with hpt hrest
            exact hrest.symm
        · rw [c4 h3' h2 (by omega)] at h
          exact absurd h (by simp)
    · rw [c2 h1' (by omega)] at h
      exact absurd h (by simp)

/-- C5: decode_g1_point_from_xy requires 2 times field_byte_len bytes,
decodes X then Y as canonical fixed-length base-field elements rejecting a
coordinate value not below the modulus, emits positional input errors naming
the short or malformed coordinate, and on success builds the decoded pair
with no curve-membership condition. -/
theorem decode_g1_point_C5 (bytes : Bytes) (field_byte_len : Nat)
    (curve : WeierstrassCurve) :
    (bytes.length < field_byte_len →
      decode_g1_point_from_xy bytes field_byte_len curve
        = .error (.InputError "Input is not long enough to get X")) ∧
    (field_byte_len ≤ bytes.length →
      curve.base_field ≤ from_bytes_be (bytes.take field_byte_len) →
      decode_g1_point_from_xy bytes field_byte_len curve
        = .error (.InputError "Failed to parse X")) ∧
    (field_byte_len ≤ bytes.length → bytes.length < 2 * field_byte_len →
      from_bytes_be (bytes.take field_byte_len) < curve.base_field →
      decode_g1_point_from_xy bytes field_byte_len curve
        = .error (.InputError "Input is not long enough to get Y")) ∧
    (2 * field_byte_len ≤ bytes.length →
      from_bytes_be (bytes.take field_byte_len) < curve.base_field →
      curve.base_field ≤ from_bytes_be ((bytes.drop field_byte_len).take field_byte_len) →
      decode_g1_point_from_xy bytes field_byte_len curve
        = .error (.InputError "Failed to parse Y")) ∧
    (2 * field_byte_len ≤ bytes.length →
      from_bytes_be (bytes.take field_byte_len) < curve.base_field →
      from_bytes_be ((bytes.drop field_byte_len).take field_byte_len) < curve.base_field →
      decode_g1_point_from_xy bytes field_byte_len curve
        = .ok ((from_bytes_be (bytes.take field_byte_len),
                from_bytes_be ((bytes.drop field_byte_len).take field_byte_len)),
               bytes.drop (2 * field_byte_len))) :=
  decode_g1_cases bytes field_byte_len curve

/-- Witness for C5: over the field with modulus 23 and two-byte elements,
the four bytes 0 5 0 7 decode to the point with coordinates 5 and 7, and a
first coordinate of value 99 is rejected as a malformed X. -/
theorem decode_g1_point_C5_witness :
    decode_g1_point_from_xy [0, 5, 0, 7] 2 ⟨1, 1, 23⟩
      = .ok ((from_bytes_be (([0, 5, 0, 7] : Bytes).take 2),
              from_bytes_be ((([0, 5, 0, 7] : Bytes).drop 2).take 2)),
             ([0, 5, 0, 7] : Bytes).drop (2 * 2)) ∧
    decode_g1_point_from_xy [0, 99, 0, 7] 2 ⟨1, 1, 23⟩
      = .error (.InputError "Failed to parse X") :=
  ⟨(decode_g1_point_C5 [0, 5, 0, 7] 2 ⟨1, 1, 23⟩).2.2.2.2
      (by decide) (by decide) (by decide),
   (decode_g1_point_C5 [0, 99, 0, 7] 2 ⟨1, 1, 23⟩).2.1
      (by decide) (by decide)⟩

end EIP

namespace EIP

theorem take_append_fixed (xb yb : Bytes) (n : Nat) (h : xb.length = n) :
    (xb ++ yb).take n = xb := by
  subst h
  exact List.take_left xb yb

theorem drop_append_fixed (xb yb : Bytes) (n : Nat) (h : xb.length = n) :
    (xb ++ yb).drop n = yb := by
  subst h
  exact List.drop_left xb yb

/-- C6: decoding and encoding of G1 points are mutually inverse: a point
with both coordinates below the base field modulus serializes to the
2 times modulus_len byte big-endian concatenation of X and Y, which decodes
back to the same point with an empty remainder; conversely any canonical
2 times modulus_len byte input that decodes successfully is reproduced
exactly by re-serializing the decoded point. -/
theorem g1_point_roundtrip_C6 (modulus_len : Nat) (curve : WeierstrassCurve)
    (hfit : curve.base_field ≤ 256 ^ modulus_len) :
    (∀ x y : Nat, x < curve.base_field → y < curve.base_field →
      serialize_g1_point modulus_len (x, y)
        = .ok (to_bytes_be_fixed modulus_len x ++ to_bytes_be_fixed modulus_len y) ∧
      (to_bytes_be_fixed modulus_len x ++ to_bytes_be_fixed modulus_len y).length
        = 2 * modulus_len ∧
      decode_g1_point_from_xy
        (to_bytes_be_fixed modulus_len x ++ to_bytes_be_fixed modulus_len y)
        modulus_len curve = .ok ((x, y), [])) ∧
    (∀ (bs : Bytes) (pt : Nat × Nat) (rest : Bytes),
      bs.length = 2 * modulus_len → (∀ b ∈ bs, b < 256) →
      decode_g1_point_from_xy bs modulus_len curve = .ok (pt, rest) →
      serialize_g1_point modulus_len pt = .ok bs ∧ rest = []) := by
  constructor
  · intro x y hx hy
    have hx' : x < 256 ^ modulus_len := lt_of_lt_of_le hx hfit
    have hy' : y < 256 ^ modulus_len := lt_of_lt_of_le hy hfit
    have hxlen := to_bytes_be_fixed_length modulus_len x
    have hylen := to_bytes_be_fixed_length modulus_len y
    have hlen2 : (to_bytes_be_fixed modulus_len x
        ++ to_bytes_be_fixed modulus_len y).length = 2 * modulus_len := by
      rw [List.length_append, hxlen, hylen]
      omega
    refine ⟨?_, hlen2, ?_⟩
    · simp only [serialize_g1_point, serialize_fp_fixed_len, if_pos hx', if_pos hy']
    · have htake := take_append_fixed (to_bytes_be_fixed modulus_len x)
        (to_bytes_be_fixed modulus_len y) modulus_len hxlen
      have hdrop := drop_append_fixed (to_bytes_be_fixed modulus_len x)
        (to_bytes_be_fixed modulus_len y) modulus_len hxlen
      have htakey : (to_bytes_be_fixed modulus_len y).take modulus_len
          = to_bytes_be_fixed modulus_len y :=
        List.take_of_length_le (by rw [hylen])
      have hX : from_bytes_be ((to_bytes_be_fixed modulus_len x
          ++ to_bytes_be_fixed modulus_len y).take modulus_len) = x := by
        rw [htake, from_to_bytes_be_fixed modulus_len x hx']
      have hY : from_bytes_be (((to_bytes_be_fixed modulus_len x
          ++ to_bytes_be_fixed modulus_len y).drop modulus_len).take modulus_len) = y := by
        rw [hdrop, htakey, from_to_bytes_be_fixed modulus_len y hy']
      have hc := (decode_g1_cases (to_bytes_be_fixed modulus_len x
          ++ to_bytes_be_fixed modulus_len y) modulus_len curve).2.2.2.2
        (by omega) (by rw [hX]; exact hx) (by rw [hY]; exact hy)
      rw [hX, hY] at hc
      have hnil : (to_bytes_be_fixed modulus_len x
          ++ to_bytes_be_fixed modulus_len y).drop (2 * modulus_len) = [] :=
        List.drop_eq_nil_of_le (by omega)
      rw [hnil] at hc
      exact hc
  · intro bs pt rest hlen hb hdec
    obtain ⟨hge, hX, hY, hpt, hrest⟩ :=
      decode_g1_ok_inv bs modulus_len curve pt rest hdec
    have hrest' : rest = [] := by
      rw [hrest]
      exact List.drop_eq_nil_of_le (by omega)
    refine ⟨?_, hrest'⟩
    have htlen : (bs.take modulus_len).length = modulus_len := by
      rw [List.length_take]
      omega
    have hdlen : (bs.drop modulus_len).length = modulus_len := by
      rw [List.length_drop]
      omega
    have hdtake : (bs.drop modulus_len).take modulus_len = bs.drop modulus_len :=
      List.take_of_length_le (by rw [hdlen])
    have hbt : ∀ b ∈ bs.take modulus_len, b < 256 :=
      fun b hbm => hb b (List.take_subset _ _ hbm)
    have hbd : ∀ b ∈ bs.drop modulus_len, b < 256 :=
      fun b hbm => hb b (List.drop_subset _ _ hbm)
    have hXlt : from_bytes_be (bs.take modulus_len) < 256 ^ modulus_len := by
      have := from_bytes_be_lt (bs.take modulus_len) hbt
      rwa [htlen] at this
    have hYlt : from_bytes_be ((bs.drop modulus_len).take modulus_len)
        < 256 ^ modulus_len := by
      have := from_bytes_be_lt (bs.drop modulus_len) hbd
      rw [hdtake]
      rwa [hdlen] at this
    subst hpt
    simp only [serialize_g1_point, serialize_fp_fixed_len, if_pos hXlt, if_pos hYlt]
    have hto_x : to_bytes_be_fixed modulus_len (from_bytes_be (bs.take modulus_len))
        = bs.take modulus_len := by
      have := to_from_bytes_be_fixed (bs.take modulus_len) hbt
      rwa [htlen] at this
    have hto_y : to_bytes_be_fixed modulus_len
        (from_bytes_be ((bs.drop modulus_len).take modulus_len))
        = bs.drop modulus_len := by
      rw [hdtake]
      have := to_from_bytes_be_fixed (bs.drop modulus_len) hbd
      rwa [hdlen] at this
    rw [hto_x, hto_y, List.take_append_drop]

/-- Witness for C6, the scenario with modulus 23 encoded in two bytes: the
point with coordinates 5 and 7 serializes to the bytes 0 5 0 7, those bytes
decode back to the point, and re-serializing reproduces them. -/
theorem g1_point_roundtrip_C6_witness :
    (serialize_g1_point 2 (5, 7)
        = .ok (to_bytes_be_fixed 2 5 ++ to_bytes_be_fixed 2 7) ∧
      (to_bytes_be_fixed 2 5 ++ to_bytes_be_fixed 2 7).length = 2 * 2 ∧
      decode_g1_point_from_xy (to_bytes_be_fixed 2 5 ++ to_bytes_be_fixed 2 7) 2
        ⟨1, 1, 23⟩ = .ok ((5, 7), [])) ∧
    (serialize_g1_point 2 (5, 7) = .ok [0, 5, 0, 7] ∧ ([] : Bytes) = []) :=
  ⟨(g1_point_roundtrip_C6 2 ⟨1, 1, 23⟩ (by norm_num)).1 5 7 (by decide) (by decide),
   (g1_point_roundtrip_C6 2 ⟨1, 1, 23⟩ (by norm_num)).2 [0, 5, 0, 7] (5, 7) []
     (by decide) (by decide) rfl⟩

end EIP

namespace EIP

/-- C7: exact byte accounting: the length-prefixed parsers fail on a declared
length exceeding the available bytes and otherwise consume exactly 1 + L
bytes, returning the suffix past them; parse_base_field_from_encoding fails
with an input error when fewer than modulus_len bytes remain after the
modulus blob and on success returns those bytes unconsumed; a successful G1
point decode consumes exactly 2 times field_byte_len bytes. -/
theorem byte_accounting_C7 (L : Nat) (rest0 : Bytes) :
    (rest0.length < L →
      get_base_field_params (L :: rest0)
        = .error (.InputError "Input is not long enough to get modulus") ∧
      get_g1_curve_params (L :: rest0)
        = .error (.InputError "Input is not long enough to get main group order size")) ∧
    (L ≤ rest0.length → from_bytes_be (rest0.take L) ≠ 0 →
      get_base_field_params (L :: rest0)
        = .ok ((from_bytes_be (rest0.take L), L), (L :: rest0).drop (1 + L))) ∧
    (L ≤ rest0.length →
      get_g1_curve_params (L :: rest0)
        = .ok ((rest0.take L, L), (L :: rest0).drop (1 + L))) ∧
    (∀ modulus modulus_len rest,
      get_base_field_params (L :: rest0) = .ok ((modulus, modulus_len), rest) →
      rest = (L :: rest0).drop (1 + modulus_len) ∧
      ∀ field, field_from_modulus modulus = some field →
        (rest.length < modulus_len →
          parse_base_field_from_encoding (L :: rest0)
            = .error (.InputError "Input is not long enough")) ∧
        (modulus_len ≤ rest.length →
          parse_base_field_from_encoding (L :: rest0)
            = .ok (field, modulus_len, modulus, rest))) ∧
    (∀ (bytes : Bytes) (len : Nat) (curve : WeierstrassCurve)
        (pt : Nat × Nat) (rest : Bytes),
      decode_g1_point_from_xy bytes len curve = .ok (pt, rest) →
      2 * len ≤ bytes.length ∧ rest = bytes.drop (2 * len)) := by
  have hdropc : (L :: rest0).drop (1 + L) = rest0.drop L := by
    rw [Nat.add_comm]
    rfl
  refine ⟨?_, ?_, ?_, ?_, ?_⟩
  · intro hshort
    rw [get_base_field_params_cons, if_pos hshort,
      get_g1_curve_params_cons, if_pos hshort]
    exact ⟨rfl, rfl⟩
  · intro hlong hnz
    rw [get_base_field_params_cons, if_neg (Nat.not_lt.mpr hlong), if_neg hnz,
      hdropc]
  · intro hlong
    rw [get_g1_curve_params_cons, if_neg (Nat.not_lt.mpr hlong), hdropc]
  · intro modulus modulus_len rest hok
    rw [get_base_field_params_cons] at hok
    by_cases hl : rest0.length < L
    · rw [if_pos hl] at hok
      exact absurd hok (by simp)
    · rw [if_neg hl] at hok
      by_cases hz : from_bytes_be (rest0.take L) = 0
      · rw [if_pos hz] at hok
        exact absurd hok (by simp)
      · rw [if_neg hz] at hok
        injection hok with hth
        injection hth with hpair hrest
        injection hpair with hval hlen
        subst hval
        subst hlen
        subst hrest
        have hdropc2 : (L :: rest0).drop (1 + L) = rest0.drop L := by
          rw [Nat.add_comm]
          rfl
        refine ⟨hdropc2.symm, ?_⟩
        intro field hfield
        constructor
        · intro hshort
          simp only [parse_base_field_from_encoding, get_base_field_params_cons,
            if_neg hl, if_neg hz, hfield, if_pos hshort]
        · intro hlong
          simp only [parse_base_field_from_encoding, get_base_field_params_cons,
            if_neg hl, if_neg hz, hfield, if_neg (Nat.not_lt.mpr hlong)]
  · intro bytes len curve pt rest hdec
    obtain ⟨hge, _, _, _, hrest⟩ := decode_g1_ok_inv bytes len curve pt rest hdec
    exact ⟨hge, hrest⟩

theorem field_from_modulus_small (m : Nat) (h : m < 2 ^ 64) :
    field_from_modulus m = some m := by
  rw [field_from_modulus,
    if_pos (lt_of_lt_of_le h (Nat.pow_le_pow_right (by norm_num) (by norm_num)))]

/-- Witness for C7: the buffer 1 7 9 parses its modulus blob consuming two
bytes and leaving the byte 9; with the trailing 9 removed the pre-check of
parse_base_field_from_encoding fails; the successful G1 decode of four bytes
leaves an empty remainder. -/
theorem byte_accounting_C7_witness :
    get_base_field_params [1, 7, 9]
      = .ok ((from_bytes_be (([7, 9] : Bytes).take 1), 1), ([1, 7, 9] : Bytes).drop (1 + 1)) ∧
    parse_base_field_from_encoding [1, 7, 9] = .ok (7, 1, 7, [9]) ∧
    parse_base_field_from_encoding [1, 7]
      = .error (.InputError "Input is not long enough") ∧
    (2 * 2 ≤ ([0, 5, 0, 7] : Bytes).length ∧
      ([] : Bytes) = ([0, 5, 0, 7] : Bytes).drop (2 * 2)) := by
  refine ⟨?_, ?_, ?_, ?_⟩
  · exact (byte_accounting_C7 1 [7, 9]).2.1 (by decide) (by decide)
  · exact (((byte_accounting_C7 1 [7, 9]).2.2.2.1 7 1 [9] rfl).2 7
      (field_from_modulus_small 7 (by norm_num))).2 (by decide)
  · exact (((byte_accounting_C7 1 [7]).2.2.2.1 7 1 [] rfl).2 7
      (field_from_modulus_small 7 (by norm_num))).1 (by decide)
  · exact (byte_accounting_C7 1 [7, 9]).2.2.2.2 [0, 5, 0, 7] 2 ⟨1, 1, 23⟩ (5, 7) [] rfl

end EIP

namespace EIP

/-- C8: create_fp3_extension fails exactly on a buffer too short for the
degree tag or the non-residue, a tag other than 3, a zero non-residue, or a
failed Frobenius derivation; it applies no residue-validity test, so any
nonzero non-residue with a successful derivation yields a successful
construction. -/
theorem create_fp3_extension_C8 (bytes : Bytes)
    (modulus field_byte_len base_field : Nat) :
    (bytes = [] →
      create_fp3_extension bytes modulus field_byte_len base_field
        = .error (.InputError "Input is not long enough to get extension degree")) ∧
    (∀ d rest, bytes = d :: rest → d ≠ EXTENSION_DEGREE_3 →
      create_fp3_extension bytes modulus field_byte_len base_field
        = .error (.UnknownParameter "Extension degree expected to be 3")) ∧
    (∀ rest e, bytes = EXTENSION_DEGREE_3 :: rest →
      decode_fp rest field_byte_len base_field = .error e →
      create_fp3_extension bytes modulus field_byte_len base_field = .error e) ∧
    (∀ rest nr rest1, bytes = EXTENSION_DEGREE_3 :: rest →
      decode_fp rest field_byte_len base_field = .ok (nr, rest1) → nr = 0 →
      create_fp3_extension bytes modulus field_byte_len base_field
        = .error (.UnexpectedZero "Fp2 non-residue can not be zero")) ∧
    (∀ rest nr rest1, bytes = EXTENSION_DEGREE_3 :: rest →
      decode_fp rest field_byte_len base_field = .ok (nr, rest1) → nr ≠ 0 →
      frobenius_coeffs_fp3 modulus nr base_field = none →
      create_fp3_extension bytes modulus field_byte_len base_field
        = .error (.UnknownParameter "Failed to calculate Frobenius coeffs for Fp3")) ∧
    (∀ rest nr rest1 c1 c2, bytes = EXTENSION_DEGREE_3 :: rest →
      decode_fp rest field_byte_len base_field = .ok (nr, rest1) → nr ≠ 0 →
      frobenius_coeffs_fp3 modulus nr base_field = some (c1, c2) →
      create_fp3_extension bytes modulus field_byte_len base_field
        = .ok (⟨nr, c1, c2⟩, rest1)) := by
  have hdeg : ¬ (EXTENSION_DEGREE_3 ≠ EXTENSION_DEGREE_3) := fun hc => hc rfl
  refine ⟨?_, ?_, ?_, ?_, ?_, ?_⟩
  · intro hb
    subst hb
    rfl
  · intro d rest hb hd
    subst hb
    simp only [create_fp3_extension, if_pos hd]
  · intro rest e hb hdec
    subst hb
    simp only [create_fp3_extension, if_neg hdeg, hdec]
  · intro rest nr rest1 hb hdec hz
    subst hb
    subst hz
    simp only [create_fp3_extension, if_neg hdeg, hdec]
    rfl
  · intro rest nr rest1 hb hdec hnz hfrob
    subst hb
    simp only [create_fp3_extension, if_neg hdeg, hdec, if_neg hnz, hfrob]
  · intro rest nr rest1 c1 c2 hb hdec hnz hfrob
    subst hb
    simp only [create_fp3_extension, if_neg hdeg, hdec, if_neg hnz, hfrob]

/-- Witness for C8: over the field with modulus 7 the element 2 is a
quadratic residue (2 equals 3 squared modulo 7), yet the cubic constructor
accepts it: no residue test is applied on the cubic path. -/
theorem create_fp3_extension_C8_witness :
    legendre_symbol 2 7 ((7 - 1) / 2) = .QuadraticResidue ∧
    (∃ c1 c2, frobenius_coeffs_fp3 7 2 7 = some (c1, c2) ∧
      create_fp3_extension (EXTENSION_DEGREE_3 :: [2, 42]) 7 1 7
        = .ok (⟨2, c1, c2⟩, [42])) :=
  ⟨by decide,
   ⟨[1 % 7, 2 ^ ((7 - 1) / 3) % 7], [1 % 7, 2 ^ (2 * ((7 - 1) / 3)) % 7],
    by decide,
    (create_fp3_extension_C8 (EXTENSION_DEGREE_3 :: [2, 42]) 7 1 7).2.2.2.2.2
      [2, 42] 2 [42] _ _ rfl rfl (by decide) (by decide)⟩⟩

/-- C9: a declared length of zero is accepted by the length-prefix stage
itself (the raw order parser returns an empty payload), and the empty
payload denotes the integer zero, so the modulus parser fails through the
UnexpectedZero check and the order parser through its zero-order InputError,
never through a truncation error. -/
theorem zero_declared_length_C9 (rest : Bytes) :
    get_g1_curve_params (0 :: rest) = .ok (([], 0), rest) ∧
    from_bytes_be [] = 0 ∧
    get_base_field_params (0 :: rest)
      = .error (.UnexpectedZero "Modulus can not be zero") ∧
    parse_group_order_from_encoding (0 :: rest)
      = .error (.InputError "Group order is zero") := by
  have hnot : ¬ (rest.length < 0) := by omega
  refine ⟨?_, rfl, ?_, ?_⟩
  · rw [get_g1_curve_params_cons, if_neg hnot]
    rfl
  · rw [get_base_field_params_cons, if_neg hnot]
    rfl
  · simp only [parse_group_order_from_encoding, get_g1_curve_params_cons,
      if_neg hnot]
    rfl

/-- C10: neither the modulus parser nor the group-order parser requires a
minimal big-endian encoding: a payload padded with leading zero bytes parses
successfully to the same integer value as the unpadded payload, and the byte
length returned is the declared prefix length including the padding. -/
theorem padded_encodings_C10 (k : Nat) (payload rest : Bytes)
    (hnz : from_bytes_be payload ≠ 0) :
    from_bytes_be (List.replicate k 0 ++ payload) = from_bytes_be payload ∧
    get_base_field_params
        ((k + payload.length) :: ((List.replicate k 0 ++ payload) ++ rest))
      = .ok ((from_bytes_be payload, k + payload.length), rest) ∧
    parse_group_order_from_encoding
        ((k + payload.length) :: ((List.replicate k 0 ++ payload) ++ rest))
      = .ok (biguint_to_u64_vec (from_bytes_be payload), k + payload.length,
             from_bytes_be payload, rest) := by
  have hplen : (List.replicate k 0 ++ payload).length = k + payload.length := by
    rw [List.length_append, List.length_replicate]
  have hlong : ¬ (((List.replicate k 0 ++ payload) ++ rest).length
      < k + payload.length) := by
    rw [List.length_append, hplen]
    omega
  have htake : ((List.replicate k 0 ++ payload) ++ rest).take (k + payload.length)
      = List.replicate k 0 ++ payload :=
    take_append_fixed _ _ _ hplen
  have hdrop : ((List.replicate k 0 ++ payload) ++ rest).drop (k + payload.length)
      = rest :=
    drop_append_fixed _ _ _ hplen
  have hval := from_bytes_be_replicate_zero k payload
  refine ⟨hval, ?_, ?_⟩
  · rw [get_base_field_params_cons, if_neg hlong, htake, hval, if_neg hnz, hdrop]
  · simp only [parse_group_order_from_encoding, get_g1_curve_params_cons,
      if_neg hlong, htake, hdrop, hval, if_neg hnz]

/-- Witness for C10: the two-byte padded encoding 0 7 of the value 7 parses
as modulus and as group order with declared length 2 and value 7. -/
theorem padded_encodings_C10_witness :
    from_bytes_be (List.replicate 1 0 ++ [7]) = from_bytes_be [7] ∧
    get_base_field_params ((1 + 1) :: ((List.replicate 1 0 ++ [7]) ++ [9]))
      = .ok ((from_bytes_be [7], 1 + 1), [9]) ∧
    parse_group_order_from_encoding ((1 + 1) :: ((List.replicate 1 0 ++ [7]) ++ [9]))
      = .ok (biguint_to_u64_vec (from_bytes_be [7]), 1 + 1, from_bytes_be [7], [9]) :=
  padded_encodings_C10 1 [7] [9] (by decide)

end EIP
